import Mathlib

/-
Verification development for SerialLog.py: a serial poller with per-channel
ring-buffered samples, a pause/resume elapsed clock, and a canvas renderer
with grid-label collision avoidance, a flowing legend and a cursor tooltip.

The Python source is shallowly embedded: pure helpers become Lean functions,
the poller's mutable state becomes an explicit record with state-passing
operations, float arithmetic on sample values is modelled over the rationals,
and pixel arithmetic over the integers.
-/

/-! ## Configuration constants (from the `Configuration` block of the source) -/

def MAX_POINTS : Nat := 2000

def GRID_LINES : Nat := 5

def LEGEND_GAP : Int := 12

def TOOLTIP_OFFSET : Int := 8

/-- Padding used by `CanvasTooltip.show`: the default of the `pad` parameter,
and also the value passed at the single call site in `on_mouse_move`. -/
def TOOLTIP_PAD : Int := 6

/-! ## Sample buffers (Python `deque(maxlen=MAX_POINTS)`) -/

/-- One append to a `collections.deque` with `maxlen = cap`: the new element
goes to the tail, and elements are discarded from the head while the length
exceeds the capacity. -/
def ringAppend {α : Type} (cap : Nat) (l : List α) (a : α) : List α :=
  let l2 := l ++ [a]
  l2.drop (l2.length - cap)

/-- Python `str.strip()`: remove leading and trailing whitespace. -/
def pyStrip (l : List Char) : List Char :=
  ((l.dropWhile Char.isWhitespace).reverse.dropWhile Char.isWhitespace).reverse

/-- Value of a decimal digit character. -/
def digitsToNat (l : List Char) : Nat :=
  l.foldl (fun acc c => acc * 10 + (c.toNat - Char.toNat '0')) 0

/-- Modelled from the source's call to the Python builtin `float(x)` (an
external language primitive): parses an optional sign, an integer part and an
optional fractional part of a plain decimal literal; any other shape fails. -/
def parseDecimal (s : String) : Option ℚ :=
  let l0 := pyStrip s.data
  let sign : ℚ := match l0 with
    | '-' :: _ => -1
    | _ => 1
  let l := match l0 with
    | '-' :: rest => rest
    | '+' :: rest => rest
    | _ => l0
  let intPart := l.takeWhile Char.isDigit
  let rest := l.dropWhile Char.isDigit
  match rest with
  | [] =>
    if intPart.isEmpty then none
    else some (sign * (digitsToNat intPart : ℚ))
  | '.' :: frac =>
    if frac.all Char.isDigit && !(intPart.isEmpty && frac.isEmpty) then
      some (sign * ((digitsToNat intPart : ℚ) +
        (digitsToNat frac : ℚ) / ((10 : ℚ) ^ frac.length)))
    else none
  | _ => none

/-- `try_float` from the source: `float(x)`, with every failure mapped to `0.0`. -/
def try_float (x : String) : ℚ :=
  (parseDecimal x).getD 0

/-- One channel's record: `{'addr', 'xs', 'ys', 'vals'}` with the three
sample deques (all created with `maxlen = MAX_POINTS`). -/
structure Channel where
  addr : String
  xs : List Int
  ys : List ℚ
  vals : List ℚ
  deriving DecidableEq

/-- A freshly registered channel (`add_channel_if_missing` / `__init__`). -/
def emptyChannel (addr : String) : Channel :=
  { addr := addr, xs := [], ys := [], vals := [] }

/-- One sample append as performed by `poll_loop` in both modes:
`ch['xs'].append(timestamp_ms)`, `ch['ys'].append(abs(try_float(val)))`,
`ch['vals'].append(try_float(val))`. -/
def appendSample (ts : Int) (val : String) (ch : Channel) : Channel :=
  { ch with
    xs := ringAppend MAX_POINTS ch.xs ts
    ys := ringAppend MAX_POINTS ch.ys |try_float val|
    vals := ringAppend MAX_POINTS ch.vals (try_float val) }

/-- Buffer clearing as performed by `restart_polling`:
`ch['xs'].clear(); ch['ys'].clear(); ch['vals'].clear()`. -/
def clearChannel (ch : Channel) : Channel :=
  { ch with xs := [], ys := [], vals := [] }

/-- The operations `poll_loop` and `restart_polling` perform on one channel's
buffers: appending one sample (under the registry lock) and clearing. -/
inductive ChOp where
  | append (ts : Int) (val : String)
  | clear
  deriving DecidableEq

def applyChOp (ch : Channel) : ChOp → Channel
  | .append ts val => appendSample ts val ch
  | .clear => clearChannel ch

/-- A channel's buffers after a sequence of append/clear operations, starting
from the freshly registered empty channel. -/
def runOps (addr : String) (ops : List ChOp) : Channel :=
  ops.foldl applyChOp (emptyChannel addr)

/-! ## Response parsing (`parse_response`, `re.findall`) -/

/-- The character class `[0-9A-Za-z\.\-]` of the value group. -/
def isValChar (c : Char) : Bool :=
  c.isDigit || c.isAlpha || c == '.' || c == '-'

/-- `re.findall(r'\$(\d+):([0-9A-Za-z\.\-]+)', s)`: scan left to right; at
each `$` try to match one-or-more digits, a colon, then one-or-more value
characters (both greedy); on success emit the pair and continue after the
match, otherwise continue at the next character. The fuel argument (the
input length at the top call) only bounds the recursion. -/
def scanPairs : Nat → List Char → List (String × String)
  | 0, _ => []
  | _, [] => []
  | fuel + 1, c :: rest =>
    if c = '$' then
      let ds := rest.takeWhile Char.isDigit
      match rest.dropWhile Char.isDigit with
      | ':' :: rest3 =>
        let vs := rest3.takeWhile isValChar
        if ds.isEmpty || vs.isEmpty then scanPairs fuel rest
        else (String.mk ds, String.mk vs) :: scanPairs fuel (rest3.dropWhile isValChar)
      | _ => scanPairs fuel rest
    else scanPairs fuel rest

/-- `s[:s.rfind(',')]` guarded by `',' in s`: cut the string at its last
comma when one is present. -/
def dropChecksum (l : List Char) : List Char :=
  if l.contains ',' then ((l.reverse.dropWhile (fun c => c ≠ ',')).tail).reverse
  else l

/-- `parse_response` from the source: empty input gives no pairs; otherwise
strip, cut at the last comma, and extract all `$<key>:<value>` matches. -/
def parse_response (resp : String) : List (String × String) :=
  if resp = "" then []
  else
    let l := dropChecksum (pyStrip resp.data)
    scanPairs l.length l

/-- `parsed_dict.get(addr, default)` on `dict(parse_response(resp))`: a
Python dict built from a pair list keeps the last occurrence of each key. -/
def dictGet (pairs : List (String × String)) (addr default : String) : String :=
  (pairs.reverse.lookup addr).getD default

/-- The row written by `log_cycle_querymode`:
`f"{ts}, " + ', '.join(vals) + '\n'` for a non-empty parse, else `f"{ts}, \n"`. -/
def log_row_querymode (ts : Int) (parsed : List (String × String)) : String :=
  if parsed.isEmpty then toString ts ++ ", " ++ "\n"
  else toString ts ++ ", " ++ String.intercalate ", " (parsed.map Prod.snd) ++ "\n"

/-- The row written by `log_cycle_cellmode`: `f"{ts}"` followed by `f", {v}"`
for each cell's value looked up by address with default `'0'`. -/
def log_row_cellmode (ts : Int) (parsed : List (String × String))
    (cell_list : List (String × String)) : String :=
  toString ts ++ String.join (cell_list.map (fun na => ", " ++ dictGet parsed na.2 "0")) ++ "\n"

/-! ## Cell-list polling cycle (`poll_loop`, non-request branch) -/

def lookupChannel (chs : List (String × Channel)) (name : String) : Option Channel :=
  chs.lookup name

/-- `self.channels[name]` mutation: replace the channel stored under `name`. -/
def updateChannel (name : String) (f : Channel → Channel) :
    List (String × Channel) → List (String × Channel)
  | [] => []
  | nc :: rest =>
    if nc.1 = name then (nc.1, f nc.2) :: rest else nc :: updateChannel name f rest

/-- The append phase of one cell-mode cycle: for each `(name, addr)` of
`cell_list`, look the address up in the parsed response dict with default
`'0'` and append the sample to that channel (lines 396-403 of the source). -/
def cellCycle (parsed : List (String × String)) (ts : Int) :
    List (String × String) → List (String × Channel) → List (String × Channel)
  | [], chs => chs
  | na :: rest, chs =>
    cellCycle parsed ts rest
      (updateChannel na.1 (appendSample ts (dictGet parsed na.2 "0")) chs)

/-! ## Tooltip placement (`CanvasTooltip.show`) -/

/-- The placement rectangle (x0, y0, x1, y1) computed by `CanvasTooltip.show`
(lines 104-133 of the source): the desired top-left puts the cursor at
(TOOLTIP_OFFSET, TOOLTIP_OFFSET) inside the box; the box is then shifted left
and up when it crosses the right or bottom canvas edge, shifted to zero when
a coordinate went negative, and as a last resort each axis is recomputed so
the cursor stays inside. The text width `text_w` and total line height
`total_h` come from font measurements (an external collaborator); the padding
is TOOLTIP_PAD, the value at the single call site and the parameter default. -/
def tooltip_rect (cursor_x cursor_y text_w total_h cw ch : Int) :
    Int × Int × Int × Int :=
  let pad := TOOLTIP_PAD
  let x0 := cursor_x - TOOLTIP_OFFSET
  let y0 := cursor_y - TOOLTIP_OFFSET
  let x1 := x0 + text_w + pad * 2
  let y1 := y0 + total_h + pad * 2
  let dx := max 0 (x1 - cw)
  let dy := max 0 (y1 - ch)
  let x0b := x0 - dx
  let x1b := x1 - dx
  let y0b := y0 - dy
  let y1b := y1 - dy
  let x1c := if x0b < 0 then x1b - x0b else x1b
  let x0c := if x0b < 0 then 0 else x0b
  let y1c := if y0b < 0 then y1b - y0b else y1b
  let y0c := if y0b < 0 then 0 else y0b
  let inx : Bool := decide (x0c ≤ cursor_x) && decide (cursor_x ≤ x1c)
  let iny : Bool := decide (y0c ≤ cursor_y) && decide (cursor_y ≤ y1c)
  let x0d := if inx then x0c
    else max 0 (min (cursor_x - TOOLTIP_OFFSET) (cw - (text_w + pad * 2)))
  let x1d := if inx then x1c else x0d + text_w + pad * 2
  let y0d := if iny then y0c
    else max 0 (min (cursor_y - TOOLTIP_OFFSET) (ch - (total_h + pad * 2)))
  let y1d := if iny then y1c else y0d + total_h + pad * 2
  (x0d, y0d, x1d, y1d)

/-! ## Grid-label collision avoidance (`update_canvas`, lines 554-580) -/

/-- The overlap test of the placement loop: candidate `(tc, bc)` collides
with a placed rectangle `(t, b)` unless `bc < t - 1` or `tc > b + 1`. -/
def overlapsAny (placed : List (Int × Int)) (tc bc : Int) : Bool :=
  placed.any (fun tb => !(decide (bc < tb.1 - 1) || decide (tc > tb.2 + 1)))

/-- The bounded outward probing: starting from the desired top, while the
candidate overlaps a placed rectangle and fewer than 50 attempts were made,
move the candidate `k = attempt / 2 + 1` steps of `text_h + 2` above (even
attempts) or below (odd attempts) the desired top. The fuel starts at 50. -/
def probeAux (placed : List (Int × Int)) (desired text_h : Int) :
    Nat → Nat → Int → Int
  | 0, _, tc => tc
  | fuel + 1, attempt, tc =>
    if overlapsAny placed tc (tc + text_h) then
      let k : Int := (attempt / 2 : Nat) + 1
      let tc2 := if attempt % 2 = 0 then desired - k * (text_h + 2)
        else desired + k * (text_h + 2)
      probeAux placed desired text_h fuel (attempt + 1) tc2
    else tc

/-- One grid label's final rectangle (top, bottom): desired top is the
gridline pixel minus half the text height, probed outward, then clamped to
the plot's vertical bounds `[top, bottom]`. -/
def placeOne (top bottom text_h : Int) (placed : List (Int × Int))
    (y_canvas : Int) : Int × Int :=
  let desired := y_canvas - text_h / 2
  let tc := probeAux placed desired text_h 50 0 desired
  let bc := tc + text_h
  let tc2 := if tc < top then top else tc
  let bc2 := if tc < top then top + text_h else bc
  let tc3 := if bc2 > bottom then bottom - text_h else tc2
  let bc3 := if bc2 > bottom then bottom else bc2
  (tc3, bc3)

/-- The rectangles placed for a list of gridline pixel positions, in the
order the rendering pass processes them (channel by channel, line by line),
accumulating `placed_label_rects` across the whole frame. -/
def placeLabels (top bottom text_h : Int) :
    List (Int × Int) → List Int → List (Int × Int)
  | placed, [] => placed
  | placed, y :: ys =>
    placeLabels top bottom text_h (placed ++ [placeOne top bottom text_h placed y]) ys

/-- Two vertical label extents overlap when they share at least one pixel row. -/
def rectsOverlap (a b : Int × Int) : Prop :=
  b.1 ≤ a.2 ∧ a.1 ≤ b.2

/-! ## Per-channel gridlines (`update_canvas`, lines 545-554) -/

/-- The data value of gridline `i_line` as drawn by `update_canvas`:
`y_val = y_min + i_line * (y_max - y_min) / GRID_LINES`, and for the topmost
line (`i_line = GRID_LINES`) `y_val` is moved down by half a band step,
floored at `y_min`. The same `y_val` then feeds both the pixel position of
the dashed line and the label text `f"{y_val:.2f}"`. -/
def gridLineValue (y_min y_max : ℚ) (i : Nat) : ℚ :=
  let step := (y_max - y_min) / (GRID_LINES : ℚ)
  let y_val := y_min + (i : ℚ) * (y_max - y_min) / (GRID_LINES : ℚ)
  if i = GRID_LINES then max y_min (y_val - step / 2) else y_val

/-- The value shown by gridline `i`'s text label: `txt = f"{y_val:.2f}"`
formats exactly the (possibly shifted) `y_val` of the line. -/
def gridLabelValue (y_min y_max : ℚ) (i : Nat) : ℚ :=
  gridLineValue y_min y_max i

/-- The values of all gridlines drawn for one channel with a non-empty
buffer: `for i_line in range(GRID_LINES + 1)`. -/
def gridValues (y_min y_max : ℚ) : List ℚ :=
  (List.range (GRID_LINES + 1)).map (gridLineValue y_min y_max)

/-- Modelled from the spec's words, for comparison with the code: the "band
value" of band `i`, the unshifted evenly spaced split of the Y domain. -/
def bandValue (y_min y_max : ℚ) (i : Nat) : ℚ :=
  y_min + (i : ℚ) * (y_max - y_min) / (GRID_LINES : ℚ)

/-! ## Drawn channels and legend flow (`update_canvas`, lines 523-524, 589-597) -/

/-- The channels rendered as polyline and gridlines: `update_canvas` skips a
channel when `not ch['xs']`. -/
def drawnChannels (chs : List (String × Channel)) : List (String × Channel) :=
  chs.filter (fun nc => !nc.2.xs.isEmpty)

/-- The legend entries: one per registered channel, in registry order, with
`last_val = ch['vals'][-1] if ch['vals'] else 0`. -/
def legendEntries (chs : List (String × Channel)) : List (String × ℚ) :=
  chs.map (fun nc => (nc.1, nc.2.vals.getLast?.getD 0))

/-- The legend cursor position at which each channel's text is drawn:
starting at `left`, each entry advances the cursor by the measured width of
its text plus LEGEND_GAP. `measure` abstracts `legend_font.measure` applied
to the entry's `f"{name}: {last_val}"` text (an external font metric). -/
def legendXs (measure : String × ℚ → Int) (left : Int) :
    List (String × Channel) → List Int
  | [] => []
  | nc :: rest =>
    left :: legendXs measure
      (left + measure (nc.1, nc.2.vals.getLast?.getD 0) + LEGEND_GAP) rest

/-- A registry with one empty channel "A" and one channel "B" holding a
single sample: the smallest state separating drawing from legend flow. -/
def exampleChannels : List (String × Channel) :=
  [("A", emptyChannel "1"),
   ("B", { addr := "2", xs := [0], ys := [7], vals := [7] })]

/-! ## Poller state: clock, colors, pause/resume/restart -/

/-- The poller's mutable state relevant to the clock, color assignment and
the channel registry. Times are rational seconds of `perf_counter`;
`thread_alive` abstracts `poll_thread and poll_thread.is_alive()`;
`stop_event` is the `threading.Event` flag. -/
structure PollState where
  channels : List (String × Channel)
  colors : List (String × String)
  next_color : Nat
  start_time : Option ℚ
  pause_accum : ℚ
  pause_start : Option ℚ
  paused : Bool
  thread_alive : Bool
  stop_event : Bool
  deriving DecidableEq

/-- The fixed palette `color_cycle` of `__init__`. -/
def color_cycle : List String :=
  ["#e6194b", "#3cb44b", "#ffe119", "#4363d8", "#f58231",
   "#911eb4", "#46f0f0", "#f032e6", "#bcf60c", "#fabebe",
   "#008080", "#e6beff", "#9a6324", "#fffac8", "#800000"]

/-- `assign_color`: a name already in `self.colors` keeps its color;
otherwise the palette color at `next_color % len(color_cycle)` is recorded
for the name and the cursor advances. -/
def assign_color (s : PollState) (name : String) : PollState × String :=
  match s.colors.lookup name with
  | some c => (s, c)
  | none =>
    let c := color_cycle.getD (s.next_color % color_cycle.length) ""
    ({ s with colors := s.colors ++ [(name, c)], next_color := s.next_color + 1 }, c)

/-- `add_channel_if_missing`: register a fresh empty channel under the lock
unless the name is already present. -/
def add_channel_if_missing (s : PollState) (name addr : String) : PollState :=
  if (s.channels.lookup name).isSome then s
  else { s with channels := s.channels ++ [(name, emptyChannel addr)] }

/-- `pause_polling` at wall-clock time `t`: a no-op while already paused,
otherwise freeze the clock by recording the pause start. -/
def pause_polling (t : ℚ) (s : PollState) : PollState :=
  if s.paused then s
  else { s with paused := true, pause_start := some t }

/-- `start_polling_thread` at wall-clock time `t`: a no-op while a thread is
alive; otherwise initialise the clock if it never started, clear the stop
event and start the thread. -/
def start_polling_thread (t : ℚ) (s : PollState) : PollState :=
  if s.thread_alive then s
  else
    let s2 := match s.start_time with
      | none => { s with start_time := some t, pause_accum := 0 }
      | some _ => s
    { s2 with stop_event := false, thread_alive := true }

/-- `resume_polling` at wall-clock time `t`: while not paused it only starts
the thread when none is alive; while paused it adds the elapsed pause
duration to `pause_accum` and unfreezes. `self.pause_start or
time.perf_counter()` falls back to `t` when `pause_start` is `None` or the
Python-falsy `0.0`. -/
def resume_polling (t : ℚ) (s : PollState) : PollState :=
  if !s.paused then
    if s.thread_alive then s else start_polling_thread t s
  else
    let ps := match s.pause_start with
      | none => t
      | some p => if p = 0 then t else p
    { s with pause_accum := s.pause_accum + (t - ps),
             pause_start := none, paused := false }

/-- `restart_polling` at wall-clock time `t`: stop and join the thread,
clear every channel's buffers (keeping the registry's keys), reset the
timers, and start a new thread. `self.colors` and `self.next_color` are not
touched. -/
def restart_polling (t : ℚ) (s : PollState) : PollState :=
  { s with
    channels := s.channels.map (fun nc => (nc.1, clearChannel nc.2)),
    start_time := some t,
    pause_accum := 0,
    pause_start := none,
    paused := false,
    stop_event := false,
    thread_alive := true }

/-- The initial poller state of a custom-request run (`__init__` with a
request string): no channels, no colors, palette cursor 0, clock unset. -/
def initState : PollState :=
  { channels := [], colors := [], next_color := 0, start_time := none,
    pause_accum := 0, pause_start := none, paused := false,
    thread_alive := false, stop_event := false }

/-- A state with channels "A" and "B" (the second holding a sample) and both
colors already assigned, as after two discovery cycles and a render. -/
def preRestartState : PollState :=
  { initState with
    channels := [("A", emptyChannel "1"),
                 ("B", { addr := "2", xs := [0], ys := [7], vals := [7] })],
    colors := [("A", "#e6194b"), ("B", "#3cb44b")],
    next_color := 2,
    start_time := some 1,
    thread_alive := true }

/-! ## Claim theorems -/

theorem ringAppend_length {α : Type} (cap : Nat) (l : List α) (a : α) :
    (ringAppend cap l a).length = min (l.length + 1) cap := by
  simp only [ringAppend, List.length_drop, List.length_append, List.length_singleton]
  omega

theorem channel_aligned_step (ch : Channel)
    (h1 : ch.ys = ch.vals.map (fun v => |v|)) (h2 : ch.xs.length = ch.vals.length)
    (op : ChOp) :
    (applyChOp ch op).ys = (applyChOp ch op).vals.map (fun v => |v|) ∧
    (applyChOp ch op).xs.length = (applyChOp ch op).vals.length := by
  cases op with
  | clear => simp [applyChOp, clearChannel]
  | append ts val =>
    have hlen : ch.ys.length = ch.vals.length := by rw [h1, List.length_map]
    constructor
    · simp only [applyChOp, appendSample, ringAppend, h1, List.length_append,
        List.length_map, List.length_singleton]
      rw [List.map_drop, List.map_append]
      simp
    · simp only [applyChOp, appendSample, ringAppend_length, h2]

theorem channel_aligned_run (addr : String) (ops : List ChOp) :
    (runOps addr ops).ys = (runOps addr ops).vals.map (fun v => |v|) ∧
    (runOps addr ops).xs.length = (runOps addr ops).vals.length := by
  suffices h : ∀ (ch : Channel), ch.ys = ch.vals.map (fun v => |v|) →
      ch.xs.length = ch.vals.length →
      (ops.foldl applyChOp ch).ys = (ops.foldl applyChOp ch).vals.map (fun v => |v|) ∧
      (ops.foldl applyChOp ch).xs.length = (ops.foldl applyChOp ch).vals.length by
    exact h (emptyChannel addr) (by simp [emptyChannel]) (by simp [emptyChannel])
  induction ops with
  | nil => intro ch hy hx; exact ⟨hy, hx⟩
  | cons op rest ih =>
    intro ch hy hx
    have step := channel_aligned_step ch hy hx op
    exact ih (applyChOp ch op) step.1 step.2

/-- Claim C10: after every sequence of append and clear operations, the three
per-channel buffers xs, ys, vals have equal length, and at every index the ys
entry is the absolute value of the vals entry (each append pushes the
timestamp, abs(try_float(val)) and try_float(val) together). -/
theorem channel_buffers_xs_ys_vals_aligned (addr : String) (ops : List ChOp)
    (i : Nat) (h1 : i < (runOps addr ops).ys.length)
    (h2 : i < (runOps addr ops).vals.length) :
    (runOps addr ops).xs.length = (runOps addr ops).ys.length ∧
    (runOps addr ops).ys.length = (runOps addr ops).vals.length ∧
    (runOps addr ops).ys[i] = |(runOps addr ops).vals[i]| := by
  obtain ⟨hmap, hxlen⟩ := channel_aligned_run addr ops
  have hylen : (runOps addr ops).ys.length = (runOps addr ops).vals.length := by
    rw [hmap, List.length_map]
  refine ⟨by omega, hylen, ?_⟩
  simp only [hmap, List.getElem_map]

/-- Witness for C10: three appends (one negative) then a clear then an append. -/
theorem channel_buffers_xs_ys_vals_aligned_witness :
    0 < (runOps "10" [ChOp.append 0 "2", ChOp.append 1 "-3", ChOp.clear,
        ChOp.append 2 "5"]).ys.length ∧
    (runOps "10" [ChOp.append 0 "2", ChOp.append 1 "-3", ChOp.clear,
        ChOp.append 2 "5"]).xs.length
      = (runOps "10" [ChOp.append 0 "2", ChOp.append 1 "-3", ChOp.clear,
        ChOp.append 2 "5"]).ys.length ∧
    (runOps "10" [ChOp.append 0 "2", ChOp.append 1 "-3", ChOp.clear,
        ChOp.append 2 "5"]).ys.length
      = (runOps "10" [ChOp.append 0 "2", ChOp.append 1 "-3", ChOp.clear,
        ChOp.append 2 "5"]).vals.length ∧
    (runOps "10" [ChOp.append 0 "2", ChOp.append 1 "-3", ChOp.clear,
        ChOp.append 2 "5"]).ys.getD 0 0
      = |(runOps "10" [ChOp.append 0 "2", ChOp.append 1 "-3", ChOp.clear,
        ChOp.append 2 "5"]).vals.getD 0 0| := by
  have h := channel_buffers_xs_ys_vals_aligned "10"
    [ChOp.append 0 "2", ChOp.append 1 "-3", ChOp.clear, ChOp.append 2 "5"]
    0 (by decide) (by decide)
  refine ⟨by decide, h.1, h.2.1, ?_⟩
  have h3 := h.2.2
  simpa [List.getD, List.getElem?_eq_getElem, (by decide :
    0 < (runOps "10" [ChOp.append 0 "2", ChOp.append 1 "-3", ChOp.clear,
      ChOp.append 2 "5"]).ys.length)] using h3

/-- Claim C1: appending to a channel buffer never makes it exceed the fixed
capacity; once the capacity is reached each further append evicts exactly the
oldest element; and appending (t, v) pairs (0,1), (1,2), (2,3), (3,4) into a
capacity-3 buffer leaves exactly [(1,2), (2,3), (3,4)] in order. -/
theorem ring_buffer_capacity_fifo (cap : Nat) (l : List (Int × ℚ)) (a : Int × ℚ)
    (hcap : 0 < cap) (hlen : l.length ≤ cap) :
    (ringAppend cap l a).length ≤ cap ∧
    (l.length = cap → ringAppend cap l a = l.tail ++ [a]) ∧
    [((0 : Int), (1 : ℚ)), (1, 2), (2, 3), (3, 4)].foldl (ringAppend 3) []
      = [((1 : Int), (2 : ℚ)), (2, 3), (3, 4)] := by
  refine ⟨?_, ?_, by decide⟩
  · simp only [ringAppend, List.length_drop, List.length_append, List.length_singleton]
    omega
  · intro hfull
    have hne : l ≠ [] := by
      intro h
      rw [h] at hfull
      simp at hfull
      omega
    simp only [ringAppend, List.length_append, List.length_singleton, hfull]
    have h1 : cap + 1 - cap = 1 := by omega
    rw [h1, List.drop_append_of_le_length (by omega), List.drop_one]

/-- Claim C8: in custom-request mode the response string `$10:123$20:45,CRC`
parses to exactly the ordered pairs [("10", "123"), ("20", "45")], and the log
row for that cycle is the timestamp followed by `, 123, 45`. -/
theorem query_scenario_parse_and_log (ts : Int) :
    parse_response "$10:123$20:45,CRC" = [("10", "123"), ("20", "45")] ∧
    log_row_querymode ts (parse_response "$10:123$20:45,CRC")
      = toString ts ++ ", 123, 45" ++ "\n" := by
  have h : parse_response "$10:123$20:45,CRC" = [("10", "123"), ("20", "45")] := by
    decide
  refine ⟨h, ?_⟩
  rw [h]
  simp only [log_row_querymode, List.isEmpty_cons, if_false, List.map_cons,
    List.map_nil, Bool.false_eq_true]
  have h2 : String.intercalate ", " ["123", "45"] = "123, 45" := rfl
  rw [h2, String.append_assoc (toString ts) ", " "123, 45"]
  rfl

/-- Witness for C1 at capacity 3 with a full buffer. -/
theorem ring_buffer_capacity_fifo_witness :
    (ringAppend 3 [((0 : Int), (1 : ℚ)), (1, 2), (2, 3)] (3, 4)).length ≤ 3 ∧
    ([((0 : Int), (1 : ℚ)), (1, 2), (2, 3)].length = 3 →
      ringAppend 3 [((0 : Int), (1 : ℚ)), (1, 2), (2, 3)] (3, 4)
        = [((0 : Int), (1 : ℚ)), (1, 2), (2, 3)].tail ++ [(3, 4)]) ∧
    [((0 : Int), (1 : ℚ)), (1, 2), (2, 3), (3, 4)].foldl (ringAppend 3) []
      = [((1 : Int), (2 : ℚ)), (2, 3), (3, 4)] :=
  ring_buffer_capacity_fifo 3 [(0, 1), (1, 2), (2, 3)] (3, 4) (by decide) (by decide)

theorem ringAppend_getLast {α : Type} (cap : Nat) (hcap : 0 < cap) (l : List α) (a : α) :
    (ringAppend cap l a).getLast? = some a := by
  simp only [ringAppend, List.length_append, List.length_singleton]
  rw [List.drop_append_of_le_length (by omega)]
  exact List.getLast?_concat _


theorem lookupChannel_update_self (name : String) (f : Channel → Channel)
    (chs : List (String × Channel)) :
    lookupChannel (updateChannel name f chs) name = (lookupChannel chs name).map f := by
  induction chs with
  | nil => rfl
  | cons nc rest ih =>
    obtain ⟨k, v⟩ := nc
    simp only [lookupChannel] at ih ⊢
    by_cases h : k = name
    · subst h
      simp [updateChannel, List.lookup]
    · have hbeq : (name == k) = false := beq_eq_false_iff_ne.mpr (Ne.symm h)
      simp only [updateChannel, if_neg h, List.lookup, hbeq]
      exact ih

theorem lookupChannel_update_other (name m : String) (f : Channel → Channel)
    (chs : List (String × Channel)) (h : m ≠ name) :
    lookupChannel (updateChannel name f chs) m = lookupChannel chs m := by
  induction chs with
  | nil => rfl
  | cons nc rest ih =>
    obtain ⟨k, v⟩ := nc
    simp only [lookupChannel] at ih ⊢
    by_cases h2 : k = name
    · subst h2
      have hbeq : (m == k) = false := beq_eq_false_iff_ne.mpr h
      simp [updateChannel, List.lookup, hbeq]
    · simp only [updateChannel, if_neg h2, List.lookup]
      cases hmk : m == k with
      | true => rfl
      | false => exact ih

theorem lookupChannel_cellCycle_notmem (parsed : List (String × String))
    (ts : Int) (cell_list : List (String × String)) (chs : List (String × Channel))
    (name : String) (h : name ∉ cell_list.map Prod.fst) :
    lookupChannel (cellCycle parsed ts cell_list chs) name = lookupChannel chs name := by
  induction cell_list generalizing chs with
  | nil => rfl
  | cons na rest ih =>
    simp only [List.map_cons, List.mem_cons, not_or] at h
    simp only [cellCycle]
    rw [ih _ h.2]
    exact lookupChannel_update_other na.1 name _ chs h.1

/-- Claim C9: in cell-list mode, when the cycle's transport read failed (the
parsed response is empty) or more generally when a channel's address is absent
from the parsed response, that channel's value for the cycle defaults to the
string '0' (appended as the number 0 with magnitude 0), the cycle still
appends one sample to every listed channel, the parse of the empty read is
empty, and the log row is the timestamp followed by one ", 0" per cell. -/
theorem cell_mode_failure_defaults (cell_list parsed : List (String × String))
    (ts : Int) (chs : List (String × Channel)) (name addr : String) (ch : Channel)
    (hnd : (cell_list.map Prod.fst).Nodup)
    (hmem : (name, addr) ∈ cell_list)
    (hch : lookupChannel chs name = some ch)
    (hpd : ∀ na : String × String, na ∈ cell_list → parsed.reverse.lookup na.2 = none) :
    lookupChannel (cellCycle parsed ts cell_list chs) name
      = some (appendSample ts "0" ch) ∧
    try_float "0" = 0 ∧
    (appendSample ts "0" ch).xs.getLast? = some ts ∧
    (appendSample ts "0" ch).ys.getLast? = some 0 ∧
    (appendSample ts "0" ch).vals.getLast? = some 0 ∧
    parse_response "" = [] ∧
    log_row_cellmode ts parsed cell_list
      = toString ts ++ String.join (cell_list.map (fun _ => ", 0")) ++ "\n" := by
  have htf : try_float "0" = 0 := by
    have h1 : try_float "0" = 1 * ((digitsToNat [ '0' ] : Nat) : ℚ) := rfl
    have h2 : digitsToNat [ '0' ] = 0 := rfl
    rw [h1, h2]
    norm_num
  have hcap : 0 < MAX_POINTS := by decide
  refine ⟨?_, htf, ?_, ?_, ?_, by decide, ?_⟩
  · induction cell_list generalizing chs with
    | nil => exact absurd hmem (List.not_mem_nil _)
    | cons na rest ih =>
      simp only [List.map_cons, List.nodup_cons] at hnd
      have hget : dictGet parsed na.2 "0" = "0" := by
        simp only [dictGet, hpd na (List.mem_cons_self na rest), Option.getD_none]
      simp only [cellCycle]
      rcases List.mem_cons.mp hmem with heq | hrest
      · have hname : na.1 = name := by rw [← heq]
        subst hname
        rw [lookupChannel_cellCycle_notmem parsed ts rest _ na.1 hnd.1]
        rw [hget, lookupChannel_update_self, hch]
        rfl
      · have hne : na.1 ≠ name := by
          intro hcontra
          exact hnd.1 (hcontra ▸ (List.mem_map.mpr ⟨(name, addr), hrest, rfl⟩))
        have hch2 : lookupChannel
            (updateChannel na.1 (appendSample ts (dictGet parsed na.2 "0")) chs) name
            = some ch := by
          rw [lookupChannel_update_other na.1 name _ chs (Ne.symm hne)]
          exact hch
        exact ih _ hnd.2 hrest hch2
          (fun na2 h2 => hpd na2 (List.mem_cons_of_mem na h2))
  · simpa only [appendSample] using ringAppend_getLast MAX_POINTS hcap ch.xs ts
  · simpa only [appendSample, htf, abs_zero] using
      ringAppend_getLast MAX_POINTS hcap ch.ys 0
  · simpa only [appendSample, htf] using ringAppend_getLast MAX_POINTS hcap ch.vals 0
  · have hmaps : List.map (fun na => ", " ++ dictGet parsed na.2 "0") cell_list
        = List.map (fun _ => ", 0") cell_list := by
      apply List.map_congr_left
      intro na hna
      simp only [dictGet, hpd na hna, Option.getD_none]
      rfl
    simp only [log_row_cellmode, hmaps]

/-- Witness for C9: a two-cell list with an empty parsed response. -/
theorem cell_mode_failure_defaults_witness :
    lookupChannel (cellCycle [] 5 [("V1", "10"), ("V2", "20")]
        [("V1", emptyChannel "10"), ("V2", emptyChannel "20")]) "V2"
      = some (appendSample 5 "0" (emptyChannel "20")) ∧
    try_float "0" = 0 ∧
    (appendSample 5 "0" (emptyChannel "20")).xs.getLast? = some 5 ∧
    (appendSample 5 "0" (emptyChannel "20")).ys.getLast? = some 0 ∧
    (appendSample 5 "0" (emptyChannel "20")).vals.getLast? = some 0 ∧
    parse_response "" = [] ∧
    log_row_cellmode 5 [] [("V1", "10"), ("V2", "20")]
      = toString (5 : Int) ++ String.join ([("V1", "10"), ("V2", "20")].map
          (fun _ => ", 0")) ++ "\n" :=
  cell_mode_failure_defaults [("V1", "10"), ("V2", "20")] [] 5
    [("V1", emptyChannel "10"), ("V2", emptyChannel "20")] "V2" "20"
    (emptyChannel "20") (by decide) (by decide) (by decide) (by decide)

/-- Claim C3: whenever the tooltip is shown (the cursor lies in the canvas,
as the plot-bounds guard of `on_mouse_move` guarantees, and the measured text
width and height are nonnegative), the cursor position lies within the
computed placement rectangle (x0, y0, x1, y1). -/
theorem tooltip_cursor_inside (cursor_x cursor_y text_w total_h cw ch : Int)
    (hx0 : 0 ≤ cursor_x) (hx1 : cursor_x ≤ cw)
    (hy0 : 0 ≤ cursor_y) (hy1 : cursor_y ≤ ch)
    (hw : 0 ≤ text_w) (hh : 0 ≤ total_h) :
    (tooltip_rect cursor_x cursor_y text_w total_h cw ch).1 ≤ cursor_x ∧
    cursor_x ≤ (tooltip_rect cursor_x cursor_y text_w total_h cw ch).2.2.1 ∧
    (tooltip_rect cursor_x cursor_y text_w total_h cw ch).2.1 ≤ cursor_y ∧
    cursor_y ≤ (tooltip_rect cursor_x cursor_y text_w total_h cw ch).2.2.2 := by
  simp only [tooltip_rect, TOOLTIP_OFFSET, TOOLTIP_PAD, Bool.and_eq_true,
    decide_eq_true_eq, Bool.ite_eq_true_distrib]
  split_ifs <;> refine ⟨?_, ?_, ?_, ?_⟩ <;> omega

/-- Witness for C3 at a concrete cursor position near the bottom-right corner. -/
theorem tooltip_cursor_inside_witness :
    (tooltip_rect 780 590 200 90 800 600).1 ≤ 780 ∧
    (780 : Int) ≤ (tooltip_rect 780 590 200 90 800 600).2.2.1 ∧
    (tooltip_rect 780 590 200 90 800 600).2.1 ≤ 590 ∧
    (590 : Int) ≤ (tooltip_rect 780 590 200 90 800 600).2.2.2 :=
  tooltip_cursor_inside 780 590 200 90 800 600 (by decide) (by decide)
    (by decide) (by decide) (by decide) (by decide)

theorem placeOne_bounds (top bottom text_h : Int) (hh : 0 ≤ text_h)
    (hfit : text_h ≤ bottom - top) (placed : List (Int × Int)) (y : Int) :
    top ≤ (placeOne top bottom text_h placed y).1 ∧
    (placeOne top bottom text_h placed y).2
      = (placeOne top bottom text_h placed y).1 + text_h ∧
    (placeOne top bottom text_h placed y).2 ≤ bottom := by
  simp only [placeOne]
  split_ifs <;> refine ⟨?_, ?_, ?_⟩ <;> omega

theorem placeLabels_bounds_aux (top bottom text_h : Int) (hh : 0 ≤ text_h)
    (hfit : text_h ≤ bottom - top) (ys : List Int) (placed : List (Int × Int))
    (hplaced : ∀ r ∈ placed, top ≤ r.1 ∧ r.2 = r.1 + text_h ∧ r.2 ≤ bottom) :
    ∀ r ∈ placeLabels top bottom text_h placed ys,
      top ≤ r.1 ∧ r.2 = r.1 + text_h ∧ r.2 ≤ bottom := by
  induction ys generalizing placed with
  | nil => simpa [placeLabels] using hplaced
  | cons y ys ih =>
    intro r hr
    refine ih _ ?_ r hr
    intro r2 hr2
    rcases List.mem_append.mp hr2 with h | h
    · exact hplaced r2 h
    · rw [List.mem_singleton.mp h]
      exact placeOne_bounds top bottom text_h hh hfit placed y

/-- Counterexample to claim C2: in one rendering pass over two channels with
identical data in the default 800x600 window (plot bounds top = 20,
bottom = 530, label height 15), the twelve gridline pixel positions place the
first label of each channel at the identical rectangle (515, 530): the
bottom clamp runs after the overlap probing, so two placed grid-label
rectangles can overlap. -/
theorem grid_labels_overlap_counterexample :
    (placeLabels 20 530 15 []
        [530, 428, 326, 224, 122, 71, 530, 428, 326, 224, 122, 71]).getD 0 (0, 0)
      = (515, 530) ∧
    (placeLabels 20 530 15 []
        [530, 428, 326, 224, 122, 71, 530, 428, 326, 224, 122, 71]).getD 6 (0, 0)
      = (515, 530) ∧
    rectsOverlap (515, 530) (515, 530) :=
  ⟨by decide, by decide, by decide, by decide⟩

/-- Claim C2 (amended): in one rendering pass, every placed grid-label
rectangle lies within the plot's vertical bounds [top, bottom] and has the
label's height, provided the label height is nonnegative and fits in the
plot; but two placed rectangles may overlap (see the counterexample), because
the clamp to the bounds is applied after the probing. -/
theorem grid_labels_within_bounds (top bottom text_h : Int)
    (hh : 0 ≤ text_h) (hfit : text_h ≤ bottom - top)
    (ys : List Int) (r : Int × Int)
    (hr : r ∈ placeLabels top bottom text_h [] ys) :
    top ≤ r.1 ∧ r.2 = r.1 + text_h ∧ r.2 ≤ bottom :=
  placeLabels_bounds_aux top bottom text_h hh hfit ys []
    (fun r2 hr2 => absurd hr2 (List.not_mem_nil r2)) r hr

/-- Witness for C2 (amended) on one gridline in the default geometry. -/
theorem grid_labels_within_bounds_witness :
    (20 : Int) ≤ (93 : Int) ∧ (108 : Int) = 93 + 15 ∧ (108 : Int) ≤ 530 :=
  grid_labels_within_bounds 20 530 15 (by decide) (by decide) [100] (93, 108)
    (by decide)

/-- Counterexample to claim C4: with Y domain [0, 10] the topmost gridline's
band value is 10, but the label shows the shifted value 9 = 10 - step/2
(step = 2): the label text is formatted from the shifted `y_val`, not from
the unshifted band value. -/
theorem topmost_label_shows_shifted_value :
    gridLabelValue 0 10 GRID_LINES = 9 ∧
    bandValue 0 10 GRID_LINES = 10 ∧
    gridLabelValue 0 10 GRID_LINES ≠ bandValue 0 10 GRID_LINES := by
  have h1 : gridLabelValue 0 10 GRID_LINES = 9 := by
    simp only [gridLabelValue, gridLineValue, GRID_LINES, if_pos rfl]
    norm_num
  have h2 : bandValue 0 10 GRID_LINES = 10 := by
    simp only [bandValue, GRID_LINES]
    norm_num
  exact ⟨h1, h2, by rw [h1, h2]; norm_num⟩

/-- Claim C4 (amended): for every channel with samples the pass draws
GRID_LINES + 1 gridlines; the lower GRID_LINES of them sit at the unshifted
evenly spaced band values, the topmost is moved down by half a band step
(floored at y_min); and each label shows its own gridline's data value (the
shifted one for the topmost line), never the pixel position. -/
theorem grid_line_and_label_values (y_min y_max : ℚ) (i : Nat)
    (hi : i < GRID_LINES) :
    (gridValues y_min y_max).length = GRID_LINES + 1 ∧
    gridLabelValue y_min y_max i = gridLineValue y_min y_max i ∧
    gridLineValue y_min y_max i = bandValue y_min y_max i ∧
    gridLineValue y_min y_max GRID_LINES
      = max y_min (bandValue y_min y_max GRID_LINES
          - (y_max - y_min) / (GRID_LINES : ℚ) / 2) := by
  refine ⟨by simp [gridValues], rfl, ?_, ?_⟩
  · simp only [gridLineValue, bandValue, if_neg (Nat.ne_of_lt hi)]
  · simp only [gridLineValue, bandValue, if_pos rfl, ite_true, eq_self_iff_true]

/-- Witness for C4 (amended) at Y domain [0, 10], band 1. -/
theorem grid_line_and_label_values_witness :
    (gridValues 0 10).length = GRID_LINES + 1 ∧
    gridLabelValue 0 10 1 = gridLineValue 0 10 1 ∧
    gridLineValue 0 10 1 = bandValue 0 10 1 ∧
    gridLineValue 0 10 GRID_LINES
      = max (0 : ℚ) (bandValue 0 10 GRID_LINES
          - ((10 : ℚ) - 0) / (GRID_LINES : ℚ) / 2) :=
  grid_line_and_label_values 0 10 1 (by decide)

theorem legendXs_length (measure : String × ℚ → Int) (left : Int)
    (chs : List (String × Channel)) :
    (legendXs measure left chs).length = chs.length := by
  induction chs generalizing left with
  | nil => rfl
  | cons nc rest ih => simp [legendXs, ih]

/-- Counterexample to claim C5: the legend loop iterates over every
registered channel, including the empty channel "A": its entry ("A", 0) is
drawn and the legend cursor advances past it (with any width, here the
constant 50, the second entry starts at 70 + 50 + LEGEND_GAP = 132), even
though "A" has no samples. -/
theorem legend_includes_empty_channel :
    legendEntries exampleChannels = [("A", 0), ("B", 7)] ∧
    ("A", (0 : ℚ)) ∈ legendEntries exampleChannels ∧
    legendXs (fun _ => 50) 70 exampleChannels = [70, 132] := by
  refine ⟨rfl, ?_, rfl⟩
  rw [show legendEntries exampleChannels = [("A", 0), ("B", 7)] from rfl]
  exact List.mem_cons_self _ _

/-- Claim C5 (amended): a channel with zero samples is indeed skipped for
polyline and gridlines (it is not among the drawn channels, all of which
have samples), but it still appears in the legend flow: the legend has one
entry per registered channel in order, the empty channel's entry shows the
default value 0, and the legend cursor advances once per registered channel
(empty ones included). -/
theorem empty_channel_drawing_and_legend (chs : List (String × Channel))
    (nc : String × Channel) (measure : String × ℚ → Int) (left : Int)
    (hmem : nc ∈ chs) (hxs : nc.2.xs = []) (hvals : nc.2.vals = []) :
    nc ∉ drawnChannels chs ∧
    (∀ nc2 ∈ drawnChannels chs, nc2.2.xs ≠ []) ∧
    (nc.1, (0 : ℚ)) ∈ legendEntries chs ∧
    (legendEntries chs).map Prod.fst = chs.map Prod.fst ∧
    (legendXs measure left chs).length = chs.length := by
  refine ⟨?_, ?_, ?_, ?_, legendXs_length measure left chs⟩
  · intro hcontra
    have h := (List.mem_filter.mp hcontra).2
    rw [hxs] at h
    simp at h
  · intro nc2 h2
    have h := (List.mem_filter.mp h2).2
    simpa using h
  · exact List.mem_map.mpr ⟨nc, hmem, by rw [hvals]; rfl⟩
  · simp only [legendEntries, List.map_map]
    rfl

/-- Witness for C5 (amended) on the example registry with empty channel "A". -/
theorem empty_channel_drawing_and_legend_witness :
    ("A", emptyChannel "1") ∉ drawnChannels exampleChannels ∧
    (∀ nc2 ∈ drawnChannels exampleChannels, nc2.2.xs ≠ []) ∧
    ("A", (0 : ℚ)) ∈ legendEntries exampleChannels ∧
    (legendEntries exampleChannels).map Prod.fst = exampleChannels.map Prod.fst ∧
    (legendXs (fun _ => 50) 70 exampleChannels).length = exampleChannels.length :=
  empty_channel_drawing_and_legend exampleChannels ("A", emptyChannel "1")
    (fun _ => 50) 70 (List.mem_cons_self _ _) rfl rfl

/-- Counterexample to claim C6: `restart_polling` does not reset color
assignment. Discover "A" then "B", restart, and re-discover "B" first: were
colors assigned from scratch in post-restart first-seen order, "B" would now
get the first palette color "#e6194b" (as it would in a fresh run); instead
the code returns its pre-restart color "#3cb44b". -/
theorem restart_keeps_prior_colors_counterexample :
    (assign_color (restart_polling 9
        (assign_color (assign_color initState "A").1 "B").1) "B").2 = "#3cb44b" ∧
    (assign_color initState "B").2 = "#e6194b" ∧
    ("#3cb44b" : String) ≠ "#e6194b" :=
  ⟨rfl, rfl, by decide⟩

/-- Claim C6 (amended): `restart_polling` clears every channel's buffers and
resets the elapsed clock (start_time re-anchored, pause_accum = 0, unpaused),
but it leaves the channel registry's names and the color state untouched: a
channel seen before the restart keeps exactly its pre-restart color,
whatever the re-discovery order. -/
theorem restart_clears_buffers_keeps_colors (s : PollState) (t : ℚ)
    (name c : String) (hc : s.colors.lookup name = some c) :
    (∀ nc ∈ (restart_polling t s).channels,
      nc.2.xs = [] ∧ nc.2.ys = [] ∧ nc.2.vals = []) ∧
    (restart_polling t s).start_time = some t ∧
    (restart_polling t s).pause_accum = 0 ∧
    (restart_polling t s).pause_start = none ∧
    (restart_polling t s).paused = false ∧
    (restart_polling t s).colors = s.colors ∧
    (restart_polling t s).next_color = s.next_color ∧
    (restart_polling t s).channels.map Prod.fst = s.channels.map Prod.fst ∧
    (assign_color (restart_polling t s) name).2 = c := by
  refine ⟨?_, rfl, rfl, rfl, rfl, rfl, rfl, ?_, ?_⟩
  · intro nc hnc
    simp only [restart_polling] at hnc
    obtain ⟨nc0, _, heq⟩ := List.mem_map.mp hnc
    rw [← heq]
    exact ⟨rfl, rfl, rfl⟩
  · simp only [restart_polling, List.map_map]
    rfl
  · simp only [assign_color]
    rw [show (restart_polling t s).colors = s.colors from rfl, hc]

/-- Witness for C6 (amended): restarting `preRestartState` at t = 9 empties
both channels' buffers, resets the clock fields, and keeps "B" at its
pre-restart color "#3cb44b". -/
theorem restart_clears_buffers_keeps_colors_witness :
    (∀ nc ∈ (restart_polling 9 preRestartState).channels,
      nc.2.xs = [] ∧ nc.2.ys = [] ∧ nc.2.vals = []) ∧
    (restart_polling 9 preRestartState).start_time = some 9 ∧
    (restart_polling 9 preRestartState).pause_accum = 0 ∧
    (restart_polling 9 preRestartState).pause_start = none ∧
    (restart_polling 9 preRestartState).paused = false ∧
    (restart_polling 9 preRestartState).colors = preRestartState.colors ∧
    (restart_polling 9 preRestartState).next_color = preRestartState.next_color ∧
    (restart_polling 9 preRestartState).channels.map Prod.fst
      = preRestartState.channels.map Prod.fst ∧
    (assign_color (restart_polling 9 preRestartState) "B").2 = "#3cb44b" :=
  restart_clears_buffers_keeps_colors preRestartState 9 "B" "#3cb44b" rfl

/-- Claim C7: calling pause twice in a row leaves the whole poller state
(paused flag, pause_start, pause_accum included) identical to calling it
once, so no paused duration is double-accumulated; and calling resume while
not paused changes no clock state: it is the identity when a polling thread
is alive, and otherwise only starts the thread (setting the alive flag and
clearing the stop event). The hypothesis that the clock has started holds
from `start()` on, before any UI command can run. -/
theorem pause_idempotent_resume_noop (s : PollState) (t1 t2 t : ℚ)
    (hstart : s.start_time ≠ none) :
    pause_polling t2 (pause_polling t1 s) = pause_polling t1 s ∧
    (s.paused = false →
      resume_polling t s
        = if s.thread_alive then s
          else { s with thread_alive := true, stop_event := false }) := by
  constructor
  · by_cases h : s.paused
    · simp [pause_polling, h]
    · simp [pause_polling, h]
  · intro hp
    simp only [resume_polling, hp, Bool.not_false, if_true]
    by_cases ht : s.thread_alive
    · simp [ht]
    · cases hst : s.start_time with
      | none => exact absurd hst hstart
      | some st => simp [start_polling_thread, ht, hst, hp]

/-- Witness for C7 on a started, unpaused state with no thread alive. -/
theorem pause_idempotent_resume_noop_witness :
    pause_polling 3 (pause_polling 2 { initState with start_time := some 1 })
      = pause_polling 2 { initState with start_time := some 1 } ∧
    resume_polling 4 { initState with start_time := some 1 }
      = if ({ initState with start_time := some 1 } : PollState).thread_alive
        then { initState with start_time := some 1 }
        else { { initState with start_time := some 1 } with
               thread_alive := true, stop_event := false } :=
  ⟨(pause_idempotent_resume_noop { initState with start_time := some 1 } 2 3 4
      (by simp [initState])).1,
   (pause_idempotent_resume_noop { initState with start_time := some 1 } 2 3 4
      (by simp [initState])).2 rfl⟩
